import Mathlib

/-!
Verification of the upsampling core in `polars-core/src/time.rs`.

The file shallowly embeds the Rust source: pure functions become Lean
functions, fallible calls return a `Res` value, machine `i64` timestamps
become `Int` (the claims never approach the 64-bit boundary), and the
external collaborators that `time.rs` uses (the `polars_time` duration and
grid generator, the cast machinery, groupby and the join engine) are
modelled from the specification, each such definition marked by a doc
comment starting with `Modelled from the spec:`.
-/

set_option autoImplicit false

namespace Polars

/-- Time resolution of a Datetime column (`polars-core` `TimeUnit`). -/
inductive TimeUnit where
  | milliseconds
  | nanoseconds
deriving DecidableEq, Repr

/-- Interval-edge inclusion policy (`polars-time` `ClosedWindow`). -/
inductive ClosedWindow where
  | left
  | right
  | both
  | none
deriving DecidableEq, Repr

/-- The column dtypes relevant to the upsampling core.  `date` and
`datetime` are the temporal dtypes `upsample_single_impl` dispatches on;
`int64` is the physical representation it casts to; `boolean` and `utf8`
stand in for every other dtype, which the code rejects via its catch-all
match arm. -/
inductive DataType where
  | date
  | datetime (tu : TimeUnit) (tz : Option String)
  | int64
  | boolean
  | utf8
deriving DecidableEq, Repr

/-- Error taxonomy of the spec (section 7).  The source raises
`PolarsError::ComputeError` with distinguishing messages; we model the
distinct conditions as distinct constructors, keeping the payloads the
messages carry (the offending dtype, the missing column name). -/
inductive PolarsError where
  /-- "Cannot determine upsample boundaries. All elements are null." -/
  | emptyDomain
  /-- "upsample not allowed for index_column of dtype {dt}" -/
  | unsupportedDtype (dt : DataType)
  /-- zero-magnitude step `Duration` (spec section 7, `InvalidDuration`). -/
  | invalidDuration
  /-- column lookup failure (`PolarsError::NotFound`). -/
  | notFound (nm : String)
  /-- unsupported cast request (outside the Date/Datetime/Int64 triangle). -/
  | castError (src tgt : DataType)
deriving DecidableEq, Repr

/-- Outcome of a fallible computation.  `ok`/`err` mirror Rust's
`Result`; `crash` models a Rust panic (an `.unwrap()` applied to an `Err`);
`diverge` is the fuel-exhaustion artifact of the bounded recursion used for
`upsample_impl` and is unreachable at the entry points' fuel. -/
inductive Res (α : Type) where
  | ok (a : α)
  | err (e : PolarsError)
  | crash (e : PolarsError)
  | diverge
deriving DecidableEq, Repr

/-- Rust's `?` operator: propagate failures unchanged. -/
def Res.bind {α β : Type} : Res α → (α → Res β) → Res β
  | .ok a, f => f a
  | .err e, _ => .err e
  | .crash e, _ => .crash e
  | .diverge, _ => .diverge

/-- Rust's `.unwrap()` followed by further work: an `Err` becomes a panic. -/
def Res.unwrapBind {α β : Type} : Res α → (α → Res β) → Res β
  | .ok a, f => f a
  | .err e, _ => .crash e
  | .crash e, _ => .crash e
  | .diverge, _ => .diverge

/-- Modelled from the spec: `polars_time::Duration` (external to `src/`),
an immutable value combining a calendar component (`months`) and a physical
component (`nsecs`, a fixed nanosecond count), with a sign flag used for
offsets.  The parser stores both magnitudes non-negatively and records the
sign in `negative`. -/
structure Duration where
  months : Int
  nsecs : Int
  negative : Bool
deriving DecidableEq, Repr

/-- A zero-magnitude duration: no calendar and no physical component. -/
def Duration.isZero (d : Duration) : Bool :=
  d.months = 0 && d.nsecs = 0

/-! ### Proleptic-Gregorian calendar arithmetic

Modelled from the spec: calendar components advance a timestamp via real
calendar rules with month-length clamping (spec section 4.1).  The
conversions between day numbers and civil dates follow the standard
Gregorian algorithms (the ones chrono uses); all divisions are floor
divisions (`Int.ediv`, whose divisors here are positive). -/

/-- Day count since 1970-01-01 of the civil date `(y, m, d)`. -/
def daysFromCivil (y m d : Int) : Int :=
  let y1 : Int := if m ≤ 2 then y - 1 else y
  let era : Int := Int.ediv y1 400
  let yoe : Int := y1 - era * 400
  let mp : Int := if m > 2 then m - 3 else m + 9
  let doy : Int := Int.ediv (153 * mp + 2) 5 + d - 1
  let doe : Int := yoe * 365 + Int.ediv yoe 4 - Int.ediv yoe 100 + doy
  era * 146097 + doe - 719468

/-- Civil date `(y, m, d)` of a day count since 1970-01-01. -/
def civilFromDays (z0 : Int) : Int × Int × Int :=
  let z : Int := z0 + 719468
  let era : Int := Int.ediv z 146097
  let doe : Int := z - era * 146097
  let yoe : Int := Int.ediv (doe - Int.ediv doe 1460 + Int.ediv doe 36524 - Int.ediv doe 146097) 365
  let y : Int := yoe + era * 400
  let doy : Int := doe - (365 * yoe + Int.ediv yoe 4 - Int.ediv yoe 100)
  let mp : Int := Int.ediv (5 * doy + 2) 153
  let d : Int := doy - Int.ediv (153 * mp + 2) 5 + 1
  let m : Int := if mp < 10 then mp + 3 else mp - 9
  (if m ≤ 2 then y + 1 else y, m, d)

/-- Gregorian leap-year rule. -/
def isLeapYear (y : Int) : Bool :=
  (Int.emod y 4 = 0 && Int.emod y 100 ≠ 0) || Int.emod y 400 = 0

/-- Number of days in month `m` of year `y` (`m` in `[1, 12]`). -/
def daysInMonth (y m : Int) : Int :=
  if m = 2 then (if isLeapYear y then 29 else 28)
  else if m = 4 || m = 6 || m = 9 || m = 11 then 30
  else 31

/-- Timestamp ticks per day at resolution `tu`. -/
def TimeUnit.ticksPerDay : TimeUnit → Int
  | .milliseconds => 86400000
  | .nanoseconds => 86400000000000

/-- Modelled from the spec: advance timestamp `t` (at resolution `tu`) by
`deltaMonths` calendar months, clamping the day-of-month into the resulting
month's valid range and keeping the time of day. -/
def addMonthsTs (tu : TimeUnit) (t deltaMonths : Int) : Int :=
  let tpd := tu.ticksPerDay
  let days := Int.ediv t tpd
  let rem := t - days * tpd
  match civilFromDays days with
  | (y, m, d) =>
    let total := y * 12 + (m - 1) + deltaMonths
    let y1 := Int.ediv total 12
    let m1 := total - y1 * 12 + 1
    let d1 := min d (daysInMonth y1 m1)
    daysFromCivil y1 m1 d1 * tpd + rem

/-- Modelled from the spec: resolve a `Duration` against a timestamp at
resolution `tu` — the calendar component advances the timestamp via
calendar arithmetic before the physical component is added as a fixed
offset (scaled from nanoseconds to `tu` as Rust division does, truncating
toward zero); the `negative` flag negates both components. -/
def Duration.addTs (d : Duration) (tu : TimeUnit) (t : Int) : Int :=
  let m : Int := if d.negative then -d.months else d.months
  let ns : Int := if d.negative then -d.nsecs else d.nsecs
  let t1 : Int := if m = 0 then t else addMonthsTs tu t m
  let phys : Int :=
    match tu with
    | .milliseconds => Int.tdiv ns 1000000
    | .nanoseconds => ns
  t1 + phys

/-- `Duration::add_ms`: resolve against a millisecond timestamp. -/
def Duration.add_ms (d : Duration) (t : Int) : Int :=
  d.addTs .milliseconds t

/-- `Duration::add_ns`: resolve against a nanosecond timestamp. -/
def Duration.add_ns (d : Duration) (t : Int) : Int :=
  d.addTs .nanoseconds t

/-- Grid loop with an inclusive stop test: push `t` and advance while
`t ≤ stop`.  The fuel bounds the iteration count; the callers supply
enough fuel for every strictly increasing advance. -/
def drIncl (adv : Int → Int) : Nat → Int → Int → List Int
  | 0, _, _ => []
  | n + 1, t, stop => if t ≤ stop then t :: drIncl adv n (adv t) stop else []

/-- Grid loop with a strict stop test: push `t` and advance while `t < stop`. -/
def drExcl (adv : Int → Int) : Nat → Int → Int → List Int
  | 0, _, _ => []
  | n + 1, t, stop => if t < stop then t :: drExcl adv n (adv t) stop else []

/-- Modelled from the spec: `polars_time::date_range_vec` (external to
`src/`).  Produces the sequence `start, start+step, start+2·step, …`
bounded to `[start, stop]` under the closed-window policy — `both` keeps
the start- and stop-aligned points, `left` drops a terminal point equal to
`stop`, `right` drops the start point, `none` drops both.  A zero-magnitude
step `Duration` fails with `InvalidDuration` instead of generating an
infinite sequence. -/
def date_range_vec (start stop : Int) (every : Duration) (closed : ClosedWindow)
    (tu : TimeUnit) : Res (List Int) :=
  if every.isZero then .err .invalidDuration
  else
    let adv := fun t => every.addTs tu t
    let fuel := (stop - start).toNat + 2
    .ok (match closed with
      | .both => drIncl adv fuel start stop
      | .left => drExcl adv fuel start stop
      | .right => drIncl adv fuel (adv start) stop
      | .none => drExcl adv fuel (adv start) stop)

/-- Modelled from the spec: chrono's `NaiveDateTime` is external to `src/`;
the source consumes only its `year()` accessor, so the model carries the
calendar year. -/
structure NaiveDateTime where
  year : Int
deriving DecidableEq, Repr

/-- `in_nanoseconds_window` from `time.rs`: the ±584-year window around
1970 representable at nanosecond resolution. -/
def in_nanoseconds_window (ndt : NaiveDateTime) : Bool :=
  !(ndt.year > 2554 || ndt.year < 1386)

/-! ### Columns and frames

Modelled from the spec: the columnar storage is an external collaborator;
a column is a named, dtyped list of nullable cells.  Every cell payload is
carried as an `Int` — the claims only inspect temporal and `i64` columns,
and any other payload can be coded as an integer without loss for the
properties at stake. -/

/-- A column: name, dtype, nullable cells. -/
structure Series where
  name : String
  dtype : DataType
  values : List (Option Int)
deriving DecidableEq, Repr

/-- A table: ordered named columns. -/
structure DataFrame where
  columns : List Series
deriving DecidableEq, Repr

/-- Row count, read off the first column (all columns share it in a
well-formed frame). -/
def DataFrame.height (df : DataFrame) : Nat :=
  match df.columns with
  | [] => 0
  | c :: _ => c.values.length

/-- `DataFrame::column`: first column with the given name, or `NotFound`. -/
def DataFrame.column (df : DataFrame) (nm : String) : Res Series :=
  match df.columns.find? (fun c => c.name == nm) with
  | some s => .ok s
  | none => .err (.notFound nm)

/-- `DataFrame::try_apply`: replace the named column by the image of the
fallible function `f`. -/
def DataFrame.try_apply (df : DataFrame) (nm : String) (f : Series → Res Series) :
    Res DataFrame :=
  Res.bind (df.column nm) fun s =>
    Res.bind (f s) fun s2 =>
      .ok ⟨df.columns.map fun c => if c.name == nm then s2 else c⟩

/-- Day count to epoch milliseconds (`Date` → `Datetime(Milliseconds)`). -/
def dateToMs (d : Int) : Int := d * 86400000

/-- Epoch milliseconds to day count (`Datetime(Milliseconds)` → `Date`;
Rust integer division truncates toward zero). -/
def msToDate (v : Int) : Int := Int.tdiv v 86400000

/-- Modelled from the spec: the lossless cast collaborator among `Date`,
`Datetime(Milliseconds)`, `Datetime(Nanoseconds)` and the physical `Int64`
view of a Datetime column; every other cast request is rejected. -/
def castSeries (s : Series) (dt : DataType) : Res Series :=
  match s.dtype, dt with
  | .datetime _ _, .int64 => .ok ⟨s.name, .int64, s.values⟩
  | .date, .datetime .milliseconds Option.none =>
      .ok ⟨s.name, .datetime .milliseconds Option.none, s.values.map (Option.map dateToMs)⟩
  | .datetime .milliseconds _, .date =>
      .ok ⟨s.name, .date, s.values.map (Option.map msToDate)⟩
  | .datetime .nanoseconds _, .date =>
      .ok ⟨s.name, .date, s.values.map (Option.map (fun v => Int.tdiv v 86400000000000))⟩
  | _, _ => .err (.castError s.dtype dt)

/-- `Series::into_frame`: the single-column frame. -/
def Series.into_frame (s : Series) : DataFrame := ⟨[s]⟩

/-- Indices (from `i`) of the cells of `vals` equal to `some t`. -/
def matchIdxsAux : Nat → List (Option Int) → Int → List Nat
  | _, [], _ => []
  | i, c :: cs, t =>
    if c = some t then i :: matchIdxsAux (i + 1) cs t else matchIdxsAux (i + 1) cs t

/-- Row pairing of a left equi-join: for each left row `l`, one pair per
matching right row, or a single `(l, none)` pair when no right key cell
equals the (non-null) left key cell. -/
def joinPairs (lvals rvals : List (Option Int)) : List (Nat × Option Nat) :=
  (List.range lvals.length).flatMap fun l =>
    match lvals.getD l none with
    | none => [(l, none)]
    | some t =>
      match matchIdxsAux 0 rvals t with
      | [] => [(l, none)]
      | r :: rs => (r :: rs).map fun r2 => (l, some r2)

/-- Modelled from the spec: the external left equi-join collaborator on one
named key column — every left row is kept, unmatched left rows take nulls
in the right-hand columns, right rows without a matching left key do not
appear, and the right key column is not repeated in the output. -/
def DataFrame.joinLeft (left right : DataFrame) (key : String) : Res DataFrame :=
  Res.bind (left.column key) fun lk =>
    Res.bind (right.column key) fun rk =>
      let pairs := joinPairs lk.values rk.values
      .ok ⟨left.columns.map
             (fun c => ⟨c.name, c.dtype, pairs.map fun p => c.values.getD p.1 none⟩) ++
           (right.columns.filter (fun c => c.name != key)).map
             (fun c => ⟨c.name, c.dtype,
               pairs.map fun p =>
                 match p.2 with
                 | some r => c.values.getD r none
                 | none => none⟩)⟩

/-- First-occurrence deduplication, preserving order. -/
def dedupFirst {κ : Type} [DecidableEq κ] (l : List κ) : List κ :=
  l.foldl (fun acc k => if k ∈ acc then acc else acc ++ [k]) []

/-- Look up several columns, failing on the first missing name. -/
def DataFrame.getCols (df : DataFrame) : List String → Res (List Series)
  | [] => .ok []
  | n :: ns =>
    Res.bind (df.column n) fun s =>
      Res.bind (df.getCols ns) fun ss => .ok (s :: ss)

/-- Sub-frame made of the given rows, in the given order. -/
def DataFrame.takeRows (df : DataFrame) (idxs : List Nat) : DataFrame :=
  ⟨df.columns.map fun c => ⟨c.name, c.dtype, idxs.map fun i => c.values.getD i none⟩⟩

/-- Modelled from the spec: the external partitioning collaborator — split
the frame by the distinct key tuples of the `keys` columns.  Stable mode
lists the partitions in first-occurrence order of their keys; the unstable
mode's order is unspecified, modelled here as an arbitrary fixed order
different from the stable one (the reverse). -/
def groupbyImpl (df : DataFrame) (keys : List String) (stable : Bool) :
    Res (List DataFrame) :=
  Res.bind (df.getCols keys) fun cols =>
    let keyOf := fun i => cols.map fun s => s.values.getD i none
    let ks := dedupFirst ((List.range df.height).map keyOf)
    let ks := if stable then ks else ks.reverse
    .ok (ks.map fun k =>
      df.takeRows ((List.range df.height).filter fun i => decide (keyOf i = k)))

/-- `DataFrame::groupby` (unstable group order). -/
def DataFrame.groupby (df : DataFrame) (keys : List String) : Res (List DataFrame) :=
  groupbyImpl df keys false

/-- `DataFrame::groupby_stable` (first-occurrence group order). -/
def DataFrame.groupby_stable (df : DataFrame) (keys : List String) : Res (List DataFrame) :=
  groupbyImpl df keys true

/-- Apply a fallible function to each frame; the first failure, in list
order, wins. -/
def mapResList (f : DataFrame → Res DataFrame) : List DataFrame → Res (List DataFrame)
  | [] => .ok []
  | d :: ds =>
    Res.bind (f d) fun r =>
      Res.bind (mapResList f ds) fun rs => .ok (r :: rs)

/-- Vertical concatenation of two frames with the same schema. -/
def vstack (a b : DataFrame) : DataFrame :=
  ⟨a.columns.map fun c =>
    match b.columns.find? (fun c2 => c2.name == c.name) with
    | some c2 => ⟨c.name, c.dtype, c.values ++ c2.values⟩
    | none => c⟩

/-- Concatenate a list of same-schema frames in order. -/
def concatFrames : List DataFrame → DataFrame
  | [] => ⟨[]⟩
  | d :: ds => ds.foldl vstack d

/-- Modelled from the spec: `GroupBy::par_apply` — map over the partitions
(first error wins, ties broken by partition index) and concatenate the
results in partition order. -/
def par_apply (groups : List DataFrame) (f : DataFrame → Res DataFrame) : Res DataFrame :=
  Res.bind (mapResList f groups) fun rs => .ok (concatFrames rs)

/-- `date_range` from `time.rs`: materialize the grid as a Datetime series
tagged with `tu` (and no timezone). -/
def date_range (nm : String) (start stop : Int) (every : Duration)
    (closed : ClosedWindow) (tu : TimeUnit) : Res Series :=
  Res.bind (date_range_vec start stop every closed tu) fun vs =>
    .ok ⟨nm, .datetime tu Option.none, vs.map some⟩

/-- The source's per-time-unit offset resolution: `offset.add_ms` on a
millisecond index, `offset.add_ns` on a nanosecond index. -/
def applyOffset (tu : TimeUnit) (offset : Duration) (t : Int) : Int :=
  match tu with
  | .milliseconds => offset.add_ms t
  | .nanoseconds => offset.add_ns t

/-- `upsample_single_impl` from `time.rs`: dispatch on the index dtype,
take the first and last non-null raw timestamps in row order, offset the
first, build the grid with `ClosedWindow::Both`, and left-join the frame
onto it. -/
def DataFrame.upsample_single_impl (df : DataFrame) (index_column : Series)
    (every offset : Duration) : Res DataFrame :=
  let index_col_name := index_column.name
  match index_column.dtype with
  | .datetime tu _ =>
    Res.unwrapBind (castSeries index_column .int64) fun s =>
      let vals := s.values.filterMap id
      match vals.head?, vals.getLast? with
      | some first, some last =>
        let first := applyOffset tu offset first
        Res.bind (date_range index_col_name first last every .both tu) fun range =>
          range.into_frame.joinLeft df index_col_name
      | _, _ => .err .emptyDomain
  | dt => .err (.unsupportedDtype dt)

/-- `upsample_impl` from `time.rs`, with an explicit recursion bound.  The
source recursion is depth-bounded (Date normalization recurses once on a
Datetime frame; the grouped branch recurses once per partition with an
empty `by` list), so fuel `3` at the entry points covers every path; the
`diverge` outcome at fuel `0` is unreachable from them.  The `.unwrap()`
calls of the source's Date branch are kept as written: an inner failure
there crashes instead of returning an error. -/
def upsample_impl : Nat → DataFrame → List String → String → Duration → Duration →
    Bool → Res DataFrame
  | 0, _, _, _, _, _, _ => .diverge
  | fuel + 1, df, by_, index_column, every, offset, stable =>
    Res.bind (df.column index_column) fun s =>
      if s.dtype = .date then
        Res.unwrapBind
            (df.try_apply index_column
              (fun c => castSeries c (.datetime .milliseconds Option.none))) fun df2 =>
          Res.unwrapBind (upsample_impl fuel df2 by_ index_column every offset stable)
              fun out =>
            Res.unwrapBind (out.try_apply index_column (fun c => castSeries c .date))
                fun out2 =>
              .ok out2
      else if by_.isEmpty then
        Res.bind (df.column index_column) fun ic =>
          df.upsample_single_impl ic every offset
      else
        Res.bind (if stable then df.groupby_stable by_ else df.groupby by_) fun groups =>
          par_apply groups fun g => upsample_impl fuel g [] index_column every offset false

/-- `DataFrame::upsample` (unstable group order). -/
def DataFrame.upsample (df : DataFrame) (by_ : List String) (time_column : String)
    (every offset : Duration) : Res DataFrame :=
  upsample_impl 3 df by_ time_column every offset false

/-- `DataFrame::upsample_stable` (stable group order). -/
def DataFrame.upsample_stable (df : DataFrame) (by_ : List String) (time_column : String)
    (every offset : Duration) : Res DataFrame :=
  upsample_impl 3 df by_ time_column every offset true

/-! ### Concrete fixtures used by witnesses and counterexamples -/

/-- The Datetime(Milliseconds) dtype without timezone. -/
def dtMs : DataType := .datetime .milliseconds Option.none

/-- The zero-magnitude duration. -/
def durZero : Duration := ⟨0, 0, false⟩

/-- One millisecond. -/
def dur1ms : Duration := ⟨0, 1000000, false⟩

/-- Two milliseconds. -/
def dur2ms : Duration := ⟨0, 2000000, false⟩

/-- Two days as a physical duration. -/
def dur2d : Duration := ⟨0, 172800000000000, false⟩

/-- Millisecond index `[0, 5]`: its maximum is not step-aligned for a 2 ms step. -/
def dfGapMax : DataFrame := ⟨[⟨"t", dtMs, [some 0, some 5]⟩]⟩

/-- Millisecond index `[0, 2]` with a payload column. -/
def dfPair : DataFrame := ⟨[⟨"t", dtMs, [some 0, some 2]⟩, ⟨"x", .int64, [some 7, some 9]⟩]⟩

/-- A duplicated millisecond timestamp with a payload column. -/
def dfDup : DataFrame := ⟨[⟨"t", dtMs, [some 0, some 0]⟩, ⟨"x", .int64, [some 7, some 8]⟩]⟩

/-- A Date index `[0, 4]` (1970-01-01 and 1970-01-05). -/
def dfDates : DataFrame := ⟨[⟨"t", .date, [some 0, some 4]⟩]⟩

/-- An all-null millisecond index. -/
def dfAllNull : DataFrame := ⟨[⟨"t", dtMs, [none, none]⟩]⟩

/-- An all-null Date index. -/
def dfDateNull : DataFrame := ⟨[⟨"t", .date, [none]⟩]⟩

/-- A boolean (non-temporal) index. -/
def dfBool : DataFrame := ⟨[⟨"t", .boolean, [some 0]⟩]⟩

/-! ### Helper lemmas -/

theorem filterMap_id_eq_nil {l : List (Option Int)} (h : ∀ v ∈ l, v = none) :
    l.filterMap id = [] := by
  induction l with
  | nil => rfl
  | cons c cs ih =>
    have hc : c = none := h c (by simp)
    subst hc
    simpa using ih fun v hv => h v (by simp [hv])

theorem drIncl_mem_le {adv : Int → Int} {stop : Int} :
    ∀ {n : Nat} {t : Int}, ∀ v ∈ drIncl adv n t stop, v ≤ stop := by
  intro n
  induction n with
  | zero => intro t v hv; simp [drIncl] at hv
  | succ n ih =>
    intro t v hv
    by_cases ht : t ≤ stop
    · rw [drIncl, if_pos ht] at hv
      rcases List.mem_cons.1 hv with h | h
      · exact h ▸ ht
      · exact ih _ h
    · rw [drIncl, if_neg ht] at hv
      simp at hv

theorem drIncl_head {adv : Int → Int} {n : Nat} {t stop : Int} (h : t ≤ stop) :
    (drIncl adv (n + 1) t stop).head? = some t := by
  rw [drIncl, if_pos h]
  rfl

/-- Unfolding of `upsample_single_impl` on a Datetime index whose non-null
scan yields a first and a last raw timestamp: the offset is resolved in the
index's time unit and added to the first timestamp only, and the frame is
left-joined onto the `ClosedWindow.both` grid named like the index. -/
theorem upsample_single_unfold (df : DataFrame) (s : Series) (every offset : Duration)
    (tu : TimeUnit) (tz : Option String) (first last : Int)
    (hd : s.dtype = .datetime tu tz)
    (hf : (s.values.filterMap id).head? = some first)
    (hl : (s.values.filterMap id).getLast? = some last) :
    df.upsample_single_impl s every offset =
      Res.bind (date_range s.name (applyOffset tu offset first) last every .both tu)
        (fun range => range.into_frame.joinLeft df s.name) := by
  obtain ⟨nm, dt, vals⟩ := s
  simp only at hd hf hl
  subst hd
  simp only [DataFrame.upsample_single_impl, castSeries, Res.unwrapBind]
  rw [hf, hl]

/-- Unfolding of `upsample_impl` with an empty `by` list on a non-Date
index: it delegates to `upsample_single_impl` regardless of fuel and of the
stable flag. -/
theorem upsample_impl_succ_empty_by (n : Nat) (df : DataFrame) (tc : String)
    (every offset : Duration) (stable : Bool) (s : Series)
    (hc : df.column tc = .ok s) (hnd : s.dtype ≠ .date) :
    upsample_impl (n + 1) df [] tc every offset stable =
      df.upsample_single_impl s every offset := by
  simp only [upsample_impl]
  rw [hc]
  simp only [Res.bind]
  rw [if_neg hnd]
  simp only [List.isEmpty_nil, if_true]

/-- `upsample` with an empty `by` list on a non-Date index delegates to
`upsample_single_impl`. -/
theorem upsample_empty_by_unfold (df : DataFrame) (tc : String) (every offset : Duration)
    (s : Series) (hc : df.column tc = .ok s) (hnd : s.dtype ≠ .date) :
    df.upsample [] tc every offset = df.upsample_single_impl s every offset :=
  upsample_impl_succ_empty_by 2 df tc every offset false s hc hnd

/-- The stable flag is never consulted when the `by` list is empty. -/
theorem upsample_impl_stable_irrelevant (tc : String) (every offset : Duration) :
    ∀ (n : Nat) (df : DataFrame) (s1 s2 : Bool),
      upsample_impl n df [] tc every offset s1 = upsample_impl n df [] tc every offset s2 := by
  intro n
  induction n with
  | zero => intro df s1 s2; rfl
  | succ n ih =>
    intro df s1 s2
    simp only [upsample_impl]
    cases hcol : df.column tc with
    | ok s =>
      simp only [Res.bind]
      by_cases hd : s.dtype = .date
      · rw [if_pos hd, if_pos hd]
        cases hta : df.try_apply tc
            (fun c => castSeries c (.datetime .milliseconds Option.none)) with
        | ok df2 =>
          simp only [Res.unwrapBind]
          rw [ih df2 s1 s2]
        | err e => rfl
        | crash e => rfl
        | diverge => rfl
      · rw [if_neg hd, if_neg hd]
        simp only [List.isEmpty_nil, if_true]
    | err e => rfl
    | crash e => rfl
    | diverge => rfl

theorem find?_map_replace (cols : List Series) (tc : String) (s s2 : Series)
    (h : cols.find? (fun c => c.name == tc) = some s) (h2 : s2.name = s.name) :
    (cols.map fun c => if c.name == tc then s2 else c).find? (fun c => c.name == tc) =
      some s2 := by
  induction cols with
  | nil => cases h
  | cons c cs ih =>
    cases hcn : (c.name == tc) with
    | true =>
      simp only [List.find?, hcn] at h
      cases h
      simp [List.find?, hcn, h2]
    | false =>
      simp only [List.find?, hcn] at h
      simp only [List.map_cons, hcn, Bool.false_eq_true, if_false, List.find?]
      exact ih h

theorem column_map_replace (df : DataFrame) (tc : String) (s s2 : Series)
    (hc : df.column tc = .ok s) (h2 : s2.name = s.name) :
    DataFrame.column ⟨df.columns.map fun c => if c.name == tc then s2 else c⟩ tc =
      .ok s2 := by
  unfold DataFrame.column at hc ⊢
  cases hfind : df.columns.find? (fun c => c.name == tc) with
  | some s3 =>
    rw [hfind] at hc
    cases hc
    rw [find?_map_replace _ _ _ _ hfind h2]
  | none => rw [hfind] at hc; cases hc

/-- One-step unfolding of `upsample_impl` on a Date index: the Date
normalization branch, with the source's `.unwrap()` calls kept as
`Res.unwrapBind`. -/
theorem upsample_impl_succ_date (n : Nat) (df : DataFrame) (by_ : List String)
    (tc : String) (every offset : Duration) (stable : Bool) (s : Series)
    (hc : df.column tc = .ok s) (hd : s.dtype = .date) :
    upsample_impl (n + 1) df by_ tc every offset stable =
      Res.unwrapBind
        (df.try_apply tc (fun c => castSeries c (.datetime .milliseconds Option.none)))
        (fun df2 =>
          Res.unwrapBind (upsample_impl n df2 by_ tc every offset stable) (fun out =>
            Res.unwrapBind (out.try_apply tc (fun c => castSeries c .date))
              (fun out2 => .ok out2))) := by
  simp only [upsample_impl]
  rw [hc]
  simp only [Res.bind]
  rw [if_pos hd]

/-! ### Claim theorems -/

/-- C8: `in_nanoseconds_window` returns true exactly when the calendar year
lies in the closed interval `[1386, 2554]`; both boundary years are
accepted and the years just outside are rejected. -/
theorem in_nanoseconds_window_year_range :
    (∀ ndt : NaiveDateTime,
        in_nanoseconds_window ndt = true ↔ 1386 ≤ ndt.year ∧ ndt.year ≤ 2554) ∧
    in_nanoseconds_window ⟨1386⟩ = true ∧
    in_nanoseconds_window ⟨2554⟩ = true ∧
    in_nanoseconds_window ⟨1385⟩ = false ∧
    in_nanoseconds_window ⟨2555⟩ = false := by
  refine ⟨fun ndt => ?_, by decide, by decide, by decide, by decide⟩
  simp only [in_nanoseconds_window, Bool.not_eq_true', Bool.or_eq_false_iff,
    decide_eq_false_iff_not, not_lt]
  omega

/-- C9: a zero-magnitude step `Duration` makes the grid generator fail with
`InvalidDuration` for every start, stop, closed-window policy and time
unit. -/
theorem date_range_zero_step_invalid (nm : String) (start stop : Int) (every : Duration)
    (closed : ClosedWindow) (tu : TimeUnit) (hz : every.isZero = true) :
    date_range nm start stop every closed tu = .err .invalidDuration := by
  simp [date_range, date_range_vec, hz, Res.bind]

/-- Witness for C9 at a concrete zero-magnitude duration. -/
theorem date_range_zero_step_invalid_witness :
    durZero.isZero = true ∧
    date_range ("t") 0 5 durZero .both .milliseconds = .err .invalidDuration :=
  ⟨by decide, date_range_zero_step_invalid ("t") 0 5 durZero .both .milliseconds (by decide)⟩

/-- C5: a partition whose index column holds only nulls makes `upsample`
fail with the `EmptyDomain` error rather than return any output frame. -/
theorem upsample_all_null_empty_domain (df : DataFrame) (tc : String) (s : Series)
    (every offset : Duration) (tu : TimeUnit) (tz : Option String)
    (hc : df.column tc = .ok s) (hd : s.dtype = .datetime tu tz)
    (hnull : ∀ v ∈ s.values, v = none) :
    df.upsample [] tc every offset = .err .emptyDomain := by
  have hnd : s.dtype ≠ .date := by rw [hd]; intro h; cases h
  rw [upsample_empty_by_unfold df tc every offset s hc hnd]
  obtain ⟨nm, dt, vals⟩ := s
  simp only at hd hnull
  subst hd
  simp only [DataFrame.upsample_single_impl, castSeries, Res.unwrapBind]
  rw [filterMap_id_eq_nil hnull]
  rfl

/-- Witness for C5 at a concrete all-null millisecond index. -/
theorem upsample_all_null_empty_domain_witness :
    dfAllNull.column ("t") = .ok ⟨"t", dtMs, [none, none]⟩ ∧
    (∀ v ∈ ([none, none] : List (Option Int)), v = none) ∧
    dfAllNull.upsample [] "t" dur1ms durZero = .err .emptyDomain :=
  ⟨by decide, by decide,
    upsample_all_null_empty_domain dfAllNull ("t") ⟨"t", dtMs, [none, none]⟩ dur1ms durZero
      .milliseconds Option.none (by decide) rfl (by decide)⟩

/-- C6: an index column whose dtype is neither Date nor Datetime makes
`upsample` fail with the `UnsupportedDtype` error carrying that dtype; the
match's catch-all arm accepts nothing. -/
theorem upsample_unsupported_dtype (df : DataFrame) (tc : String) (s : Series)
    (every offset : Duration) (dt : DataType)
    (hc : df.column tc = .ok s) (hdt : s.dtype = dt)
    (h1 : dt ≠ .date) (h2 : ∀ tu tz, dt ≠ .datetime tu tz) :
    df.upsample [] tc every offset = .err (.unsupportedDtype dt) := by
  have hnd : s.dtype ≠ .date := hdt ▸ h1
  rw [upsample_empty_by_unfold df tc every offset s hc hnd]
  obtain ⟨nm, dt', vals⟩ := s
  simp only at hdt
  subst hdt
  cases dt' with
  | date => exact absurd rfl h1
  | datetime tu tz => exact absurd rfl (h2 tu tz)
  | int64 => rfl
  | boolean => rfl
  | utf8 => rfl

/-- Witness for C6 at a concrete boolean index. -/
theorem upsample_unsupported_dtype_witness :
    dfBool.column ("t") = .ok ⟨"t", .boolean, [some 0]⟩ ∧
    dfBool.upsample [] "t" dur1ms durZero = .err (.unsupportedDtype .boolean) :=
  ⟨by decide,
    upsample_unsupported_dtype dfBool ("t") ⟨"t", .boolean, [some 0]⟩ dur1ms durZero .boolean
      (by decide) rfl (fun h => DataType.noConfusion h)
      (fun _ _ h => DataType.noConfusion h)⟩

/-- C7 (code bug): on a Date-typed index whose values are all null, the
inner `EmptyDomain` failure is hit inside the Date-normalization branch,
whose `.unwrap()` turns it into a panic — the call does not return it as an
error result. -/
theorem upsample_date_branch_crash :
    dfDateNull.upsample [] "t" dur1ms durZero = .crash .emptyDomain ∧
    ¬ ∃ e, dfDateNull.upsample [] "t" dur1ms durZero = .err e := by
  refine ⟨by decide, ?_⟩
  rintro ⟨e, he⟩
  rw [show dfDateNull.upsample [] "t" dur1ms durZero = .crash .emptyDomain from by decide] at he
  cases he

/-- C10: with an empty `by` list, `upsample` and `upsample_stable` compute
the same function — the stable flag only matters on the grouped path, which
an empty `by` list never reaches. -/
theorem upsample_eq_upsample_stable_on_empty_by (df : DataFrame) (tc : String)
    (every offset : Duration) :
    df.upsample [] tc every offset = df.upsample_stable [] tc every offset :=
  upsample_impl_stable_irrelevant tc every offset 3 df false true

/-- C1 (counterexample): on the sorted millisecond index `[0, 5]` with a
2 ms step and zero offset, the grid is `[0, 2, 4]` — the partition maximum
`5` is not step-aligned and the grid does not include it, so "the grid
extends up to and including the partition's maximum index value" fails. -/
theorem upsample_grid_omits_max :
    dfGapMax.upsample [] "t" dur2ms durZero =
      .ok ⟨[⟨"t", .datetime .milliseconds Option.none, [some 0, some 2, some 4]⟩]⟩ ∧
    date_range_vec 0 5 dur2ms .both .milliseconds = .ok [0, 2, 4] ∧
    (([some 0, some 5] : List (Option Int)).filterMap id).getLast? = some 5 ∧
    (5 : Int) ∉ ([0, 2, 4] : List Int) := by
  decide

/-- C1 (amended): the grid generated for a partition starts exactly at the
first non-null index value plus the offset (the minimum plus the offset for
a sorted index, hence ≥ it), and every grid point is at most the last
non-null index value (the maximum for a sorted index); the grid reaches up
to that maximum but includes it only when it is step-aligned. -/
theorem upsample_grid_bounds (df : DataFrame) (s : Series) (every offset : Duration)
    (tu : TimeUnit) (tz : Option String) (first last : Int)
    (hd : s.dtype = .datetime tu tz)
    (hf : (s.values.filterMap id).head? = some first)
    (hl : (s.values.filterMap id).getLast? = some last)
    (hz : every.isZero = false) :
    ∃ g : List Int,
      date_range_vec (applyOffset tu offset first) last every .both tu = .ok g ∧
      (∀ v ∈ g, v ≤ last) ∧
      (applyOffset tu offset first ≤ last →
        g.head? = some (applyOffset tu offset first)) ∧
      df.upsample_single_impl s every offset =
        Res.bind (date_range s.name (applyOffset tu offset first) last every .both tu)
          (fun range => range.into_frame.joinLeft df s.name) := by
  refine ⟨drIncl (fun t => every.addTs tu t)
      ((last - applyOffset tu offset first).toNat + 2) (applyOffset tu offset first) last,
    ?_, ?_, ?_, upsample_single_unfold df s every offset tu tz first last hd hf hl⟩
  · simp [date_range_vec, hz]
  · exact fun v hv => drIncl_mem_le v hv
  · exact fun hle => drIncl_head hle

/-- Witness for the amended C1 at the index `[0, 5]` with a 2 ms step. -/
theorem upsample_grid_bounds_witness :
    (([some 0, some 5] : List (Option Int)).filterMap id).head? = some 0 ∧
    (([some 0, some 5] : List (Option Int)).filterMap id).getLast? = some 5 ∧
    dur2ms.isZero = false ∧
    (∃ g : List Int,
      date_range_vec (applyOffset .milliseconds durZero 0) 5 dur2ms .both .milliseconds =
        .ok g ∧
      (∀ v ∈ g, v ≤ 5) ∧
      (applyOffset .milliseconds durZero 0 ≤ 5 →
        g.head? = some (applyOffset .milliseconds durZero 0)) ∧
      dfGapMax.upsample_single_impl ⟨"t", dtMs, [some 0, some 5]⟩ dur2ms durZero =
        Res.bind (date_range ("t") (applyOffset .milliseconds durZero 0) 5 dur2ms .both
            .milliseconds)
          (fun range => range.into_frame.joinLeft dfGapMax ("t"))) :=
  ⟨by decide, by decide, by decide,
    upsample_grid_bounds dfGapMax ⟨"t", dtMs, [some 0, some 5]⟩ dur2ms durZero
      .milliseconds Option.none 0 5 rfl (by decide) (by decide) (by decide)⟩

/-- C2: on a Datetime index, the offset is resolved in the index column's
time unit (`add_ms` for milliseconds, `add_ns` for nanoseconds — this is
`applyOffset`) and added to the first timestamp only; the last timestamp is
passed to the grid generator unchanged, with the `Both` closed-window
policy, and the grid series carries the index column's name. -/
theorem upsample_single_offset_only_start (df : DataFrame) (s : Series)
    (every offset : Duration) (tu : TimeUnit) (tz : Option String) (first last : Int)
    (hd : s.dtype = .datetime tu tz)
    (hf : (s.values.filterMap id).head? = some first)
    (hl : (s.values.filterMap id).getLast? = some last) :
    df.upsample_single_impl s every offset =
      Res.bind (date_range s.name (applyOffset tu offset first) last every .both tu)
        (fun range => range.into_frame.joinLeft df s.name) ∧
    (∀ g : Series,
        date_range s.name (applyOffset tu offset first) last every .both tu = .ok g →
        g.name = s.name ∧ g.dtype = .datetime tu Option.none) := by
  refine ⟨upsample_single_unfold df s every offset tu tz first last hd hf hl, ?_⟩
  intro g hg
  cases hvec : date_range_vec (applyOffset tu offset first) last every .both tu with
  | ok vs =>
    simp only [date_range, hvec, Res.bind] at hg
    cases hg
    exact ⟨rfl, rfl⟩
  | err e =>
    simp only [date_range, hvec, Res.bind] at hg
    exact Res.noConfusion hg
  | crash e =>
    simp only [date_range, hvec, Res.bind] at hg
    exact Res.noConfusion hg
  | diverge =>
    simp only [date_range, hvec, Res.bind] at hg
    exact Res.noConfusion hg

/-- Witness for C2 at the millisecond index `[0, 2]` with a 1 ms step. -/
theorem upsample_single_offset_only_start_witness :
    (([some 0, some 2] : List (Option Int)).filterMap id).head? = some 0 ∧
    (([some 0, some 2] : List (Option Int)).filterMap id).getLast? = some 2 ∧
    (dfPair.upsample_single_impl ⟨"t", dtMs, [some 0, some 2]⟩ dur1ms durZero =
      Res.bind (date_range ("t") (applyOffset .milliseconds durZero 0) 2 dur1ms .both
          .milliseconds)
        (fun range => range.into_frame.joinLeft dfPair ("t")) ∧
     (∀ g : Series,
        date_range ("t") (applyOffset .milliseconds durZero 0) 2 dur1ms .both
            .milliseconds = .ok g →
        g.name = "t" ∧ g.dtype = .datetime .milliseconds Option.none)) :=
  ⟨by decide, by decide,
    upsample_single_offset_only_start dfPair ⟨"t", dtMs, [some 0, some 2]⟩ dur1ms durZero
      .milliseconds Option.none 0 2 rfl (by decide) (by decide)⟩

/-- C4: on a Date-typed index, `upsample` takes the normalization branch:
the index column is cast to Datetime(Milliseconds) (each day value `d`
becomes `dateToMs d`), the Datetime pipeline runs on the cast frame, the
result's index is cast back to Date (each millisecond value `v` becomes
`msToDate v`), and this round trip is lossless on every day value:
`msToDate (dateToMs d) = d`. -/
theorem upsample_date_roundtrip (df : DataFrame) (tc : String) (s : Series)
    (every offset : Duration) (hc : df.column tc = .ok s) (hd : s.dtype = .date) :
    (∀ d : Int, msToDate (dateToMs d) = d) ∧
    (∃ df2 : DataFrame,
      df.try_apply tc (fun c => castSeries c (.datetime .milliseconds Option.none)) =
        .ok df2 ∧
      df2.column tc =
        .ok ⟨s.name, .datetime .milliseconds Option.none,
          s.values.map (Option.map dateToMs)⟩ ∧
      df.upsample [] tc every offset =
        Res.unwrapBind (upsample_impl 2 df2 [] tc every offset false) (fun out =>
          Res.unwrapBind (out.try_apply tc (fun c => castSeries c .date))
            (fun out2 => .ok out2))) ∧
    (∀ (c : Series) (tz2 : Option String), c.dtype = .datetime .milliseconds tz2 →
      castSeries c .date = .ok ⟨c.name, .date, c.values.map (Option.map msToDate)⟩) := by
  obtain ⟨nm, dt, vals⟩ := s
  simp only at hd
  subst hd
  have hcast : castSeries ⟨nm, .date, vals⟩ (.datetime .milliseconds Option.none) =
      .ok ⟨nm, .datetime .milliseconds Option.none, vals.map (Option.map dateToMs)⟩ := rfl
  have hta : df.try_apply tc (fun c => castSeries c (.datetime .milliseconds Option.none)) =
      .ok ⟨df.columns.map fun c => if c.name == tc
        then ⟨nm, .datetime .milliseconds Option.none, vals.map (Option.map dateToMs)⟩
        else c⟩ := by
    simp only [DataFrame.try_apply, hc, Res.bind, hcast]
  refine ⟨fun d => Int.mul_tdiv_cancel d (by norm_num), ?_, ?_⟩
  · refine ⟨_, hta, column_map_replace df tc _ _ hc rfl, ?_⟩
    have h3 := upsample_impl_succ_date 2 df [] tc every offset false ⟨nm, .date, vals⟩
      hc rfl
    rw [hta] at h3
    simp only [Res.unwrapBind] at h3
    exact h3
  · intro c tz2 hc2
    obtain ⟨nm2, dt2, vals2⟩ := c
    simp only at hc2
    subst hc2
    rfl

/-- C3 (counterexample): with the duplicated millisecond timestamp `0`
(and a 1 ms step), the grid is the single row `[0]`, but the left join
matches it against both partition rows, so the grid row appears twice in
the output — "each grid row exactly once" fails. -/
theorem upsample_join_duplicates_grid_row :
    dfDup.upsample [] "t" dur1ms durZero =
      .ok ⟨[⟨"t", .datetime .milliseconds Option.none, [some 0, some 0]⟩,
            ⟨"x", .int64, [some 7, some 8]⟩]⟩ ∧
    date_range_vec 0 0 dur1ms .both .milliseconds = .ok [0] ∧
    ([(0 : Int)].count 0 = 1) ∧
    (([some 0, some 0] : List (Option Int)).count (some 0) = 2) := by
  decide

theorem matchIdxsAux_eq_nil_iff (i : Nat) (l : List (Option Int)) (t : Int) :
    matchIdxsAux i l t = [] ↔ some t ∉ l := by
  induction l generalizing i with
  | nil => simp [matchIdxsAux]
  | cons c cs ih =>
    by_cases hc : c = some t
    · subst hc
      simp [matchIdxsAux]
    · simp [matchIdxsAux, hc, ih, Ne.symm hc]

theorem length_matchIdxsAux (i : Nat) (l : List (Option Int)) (t : Int) :
    (matchIdxsAux i l t).length = l.count (some t) := by
  induction l generalizing i with
  | nil => simp [matchIdxsAux]
  | cons c cs ih =>
    by_cases hc : c = some t
    · subst hc
      simp [matchIdxsAux, ih, List.count_cons]
    · simp [matchIdxsAux, hc, ih, List.count_cons]

theorem count_some_le_one_of_nodup (l : List (Option Int)) (t : Int)
    (h : (l.filterMap id).Nodup) : l.count (some t) ≤ 1 := by
  induction l with
  | nil => simp
  | cons c cs ih =>
    cases c with
    | none =>
      have h2 : (cs.filterMap id).Nodup := by simpa using h
      simpa [List.count_cons] using ih h2
    | some a =>
      have h2 : (a :: cs.filterMap id).Nodup := by simpa using h
      obtain ⟨hnot, hnd⟩ := List.nodup_cons.1 h2
      by_cases hat : a = t
      · subst hat
        have hzero : cs.count (some a) = 0 := by
          rw [List.count_eq_zero]
          intro hmem
          exact hnot (List.mem_filterMap.2 ⟨some a, hmem, rfl⟩)
        simp [List.count_cons, hzero]
      · have hle := ih hnd
        simpa [List.count_cons, Ne.symm hat] using hle

theorem flatMap_eq_map_of {α β : Type} (ns : List α) (f : α → List β) (g : α → β)
    (h : ∀ a ∈ ns, f a = [g a]) : ns.flatMap f = ns.map g := by
  induction ns with
  | nil => rfl
  | cons a as ih =>
    simp only [List.flatMap_cons, List.map_cons]
    rw [h a (by simp), ih (fun b hb => h b (by simp [hb]))]
    rfl

theorem range_map_getD {α : Type} (l : List α) (d : α) :
    (List.range l.length).map (fun i => l.getD i d) = l := by
  induction l with
  | nil => rfl
  | cons a as ih =>
    rw [List.length_cons, List.range_succ_eq_map, List.map_cons, List.map_map]
    have hcomp : ((fun i => (a :: as).getD i d) ∘ Nat.succ) = fun i => as.getD i d := by
      funext i
      rfl
    rw [hcomp, ih]
    rfl

theorem getD_map_range {α : Type} (n : Nat) (f : Nat → α) (d : α) (l : Nat) (h : l < n) :
    ((List.range n).map f).getD l d = f l := by
  rw [List.getD_eq_getElem?_getD, List.getElem?_map, List.getElem?_range h]
  rfl

theorem getD_map_some (g : List Int) (l : Nat) (h : l < g.length) :
    (g.map some).getD l none = some (g.getD l 0) := by
  rw [List.getD_eq_getElem?_getD, List.getElem?_map, List.getD_eq_getElem?_getD,
    List.getElem?_eq_getElem h]
  rfl

theorem joinPairs_map_some (g : List Int) (rvals : List (Option Int))
    (h : ∀ t : Int, rvals.count (some t) ≤ 1) :
    joinPairs (g.map some) rvals =
      (List.range g.length).map
        (fun l => (l, (matchIdxsAux 0 rvals (g.getD l 0)).head?)) := by
  unfold joinPairs
  rw [List.length_map]
  apply flatMap_eq_map_of
  intro l hl
  have hlt : l < g.length := List.mem_range.1 hl
  rw [getD_map_some g l hlt]
  have hle : (matchIdxsAux 0 rvals (g.getD l 0)).length ≤ 1 := by
    rw [length_matchIdxsAux]
    exact h _
  dsimp only
  cases hm : matchIdxsAux 0 rvals (g.getD l 0) with
  | nil => rfl
  | cons r rs =>
    cases rs with
    | nil => rfl
    | cons r2 rs2 =>
      rw [hm] at hle
      simp at hle

/-- C3 (amended): when the partition's non-null index timestamps are
pairwise distinct, the joined output keeps each grid row exactly once and
in grid order (the output index column is exactly the grid), grid rows
without a matching partition timestamp carry nulls in every non-index
column, and partition rows whose timestamp is absent from the grid are
dropped (no output index cell holds such a timestamp). -/
theorem upsample_join_exactly_once (df : DataFrame) (s : Series) (every offset : Duration)
    (tu : TimeUnit) (tz : Option String) (first last : Int) (g : List Int)
    (out : DataFrame)
    (hcol : df.column s.name = .ok s)
    (hd : s.dtype = .datetime tu tz)
    (hf : (s.values.filterMap id).head? = some first)
    (hl : (s.values.filterMap id).getLast? = some last)
    (hnodup : (s.values.filterMap id).Nodup)
    (hgrid : date_range_vec (applyOffset tu offset first) last every .both tu = .ok g)
    (hout : df.upsample_single_impl s every offset = .ok out) :
    out.column s.name = .ok ⟨s.name, .datetime tu Option.none, g.map some⟩ ∧
    (∀ c ∈ out.columns, c.name ≠ s.name → ∀ l : Nat, l < g.length →
      some (g.getD l 0) ∉ s.values → c.values.getD l none = none) ∧
    (∀ t : Int, t ∉ g → ∀ c ∈ out.columns, c.name = s.name → some t ∉ c.values) := by
  have hcount : ∀ t : Int, s.values.count (some t) ≤ 1 :=
    fun t => count_some_le_one_of_nodup s.values t hnodup
  have hpairs := joinPairs_map_some g s.values hcount
  rw [upsample_single_unfold df s every offset tu tz first last hd hf hl] at hout
  simp only [date_range, hgrid, Res.bind] at hout
  have hleft : (Series.into_frame ⟨s.name, .datetime tu Option.none, g.map some⟩).column
      s.name = .ok ⟨s.name, .datetime tu Option.none, g.map some⟩ := by
    simp [Series.into_frame, DataFrame.column, List.find?]
  simp only [DataFrame.joinLeft] at hout
  rw [hleft, hcol] at hout
  simp only [Res.bind] at hout
  cases hout
  have hidx : (joinPairs (g.map some) s.values).map
      (fun p => ((g.map some).getD p.1 none)) = g.map some := by
    rw [hpairs, List.map_map]
    have hcomp : ((fun p : Nat × Option Nat => (g.map some).getD p.1 none) ∘
        (fun l => (l, (matchIdxsAux 0 s.values (g.getD l 0)).head?))) =
        fun i => (g.map some).getD i none := rfl
    rw [hcomp]
    have hlen : g.length = (g.map some).length := (List.length_map g some).symm
    rw [hlen, range_map_getD]
  refine ⟨?_, ?_, ?_⟩
  · simp only [Series.into_frame, DataFrame.column, List.map_cons, List.map_nil,
      List.cons_append, List.nil_append, List.find?, beq_self_eq_true]
    rw [hidx]
  · intro c hc hcne l hlt hnot
    simp only [Series.into_frame, List.map_cons, List.map_nil, List.cons_append,
      List.nil_append, List.mem_cons] at hc
    rcases hc with hc | hc
    · subst hc
      exact absurd rfl hcne
    · obtain ⟨c0, hc0, rfl⟩ := List.mem_map.1 hc
      dsimp only
      rw [hpairs, List.map_map]
      rw [getD_map_range _ _ _ _ hlt]
      dsimp only [Function.comp]
      rw [(matchIdxsAux_eq_nil_iff 0 s.values (g.getD l 0)).2 hnot]
      rfl
  · intro t ht c hc hcname
    simp only [Series.into_frame, List.map_cons, List.map_nil, List.cons_append,
      List.nil_append, List.mem_cons] at hc
    rcases hc with hc | hc
    · subst hc
      dsimp only
      rw [hidx]
      intro hmem
      obtain ⟨u, hu, he⟩ := List.mem_map.1 hmem
      exact ht (Option.some.inj he ▸ hu)
    · obtain ⟨c0, hc0, rfl⟩ := List.mem_map.1 hc
      obtain ⟨hc0mem, hc0pred⟩ := List.mem_filter.1 hc0
      rw [bne_iff_ne] at hc0pred
      exact absurd hcname hc0pred

/-- Witness for the amended C3 at the millisecond index `[0, 2]` with a
payload column and a 1 ms step: the output index equals the grid
`[0, 1, 2]` and the unmatched middle row holds a null payload. -/
theorem upsample_join_exactly_once_witness :
    (([some 0, some 2] : List (Option Int)).filterMap id).Nodup ∧
    date_range_vec 0 2 dur1ms .both .milliseconds = .ok [0, 1, 2] ∧
    dfPair.upsample_single_impl ⟨"t", dtMs, [some 0, some 2]⟩ dur1ms durZero =
      .ok ⟨[⟨"t", .datetime .milliseconds Option.none, [some 0, some 1, some 2]⟩,
            ⟨"x", .int64, [some 7, none, some 9]⟩]⟩ ∧
    DataFrame.column
        ⟨[⟨"t", .datetime .milliseconds Option.none, [some 0, some 1, some 2]⟩,
          ⟨"x", .int64, [some 7, none, some 9]⟩]⟩ "t" =
      .ok ⟨"t", .datetime .milliseconds Option.none, [some 0, some 1, some 2]⟩ :=
  ⟨by decide, by decide, by decide,
    (upsample_join_exactly_once dfPair ⟨"t", dtMs, [some 0, some 2]⟩ dur1ms durZero
      .milliseconds Option.none 0 2 [0, 1, 2]
      ⟨[⟨"t", .datetime .milliseconds Option.none, [some 0, some 1, some 2]⟩,
        ⟨"x", .int64, [some 7, none, some 9]⟩]⟩
      (by decide) rfl (by decide) (by decide) (by decide) (by decide) (by decide)).1⟩

/-- Witness for C4 at a Date index `[0, 4]` with a two-day step; the
end-to-end run reproduces exactly the day values `0, 2, 4`. -/
theorem upsample_date_roundtrip_witness :
    dfDates.column ("t") = .ok ⟨"t", .date, [some 0, some 4]⟩ ∧
    dfDates.upsample [] "t" dur2d durZero =
      .ok ⟨[⟨"t", .date, [some 0, some 2, some 4]⟩]⟩ ∧
    (∀ d : Int, msToDate (dateToMs d) = d) :=
  ⟨by decide, by decide,
    (upsample_date_roundtrip dfDates ("t") ⟨"t", .date, [some 0, some 4]⟩ dur2d durZero
      (by decide) rfl).1⟩

end Polars
